import Mathlib

/-!
# Slate editor: HTML serialisation of the document tree

A shallow embedding of `serialize` and of the document-level loop of
`src/components/SlateEditor/Editor.jsx`.

JavaScript strings are embedded as `String`, a property that may be missing
from an object (`undefined`) as `Option`, boolean marks as `Bool`.
The two lookup tables `sizeMap` and `fontFamilyMap` are imported from
`utils/SlateUtilityFunctions.js`; they are parameters of the embedding: a parameter gives,
for a key, the text of the value the property lookup `map[key]` finds (an own property of
the table or one it inherits), and `none` when the lookup finds nothing (`undefined`).
-/

namespace SlateEditor

/-! ## Data model -/

/-- A text leaf of the document (`Text.isText(node)` holds): the raw text and the marks
the editor stores on it. The four valued marks are absent (`none`) or carry a string. -/
structure TextSpan where
  text : String
  bold : Bool := false
  code : Bool := false
  italic : Bool := false
  strikethrough : Bool := false
  underline : Bool := false
  superscript : Bool := false
  subscript : Bool := false
  color : Option String := none
  bgColor : Option String := none
  fontSize : Option String := none
  fontFamily : Option String := none
deriving DecidableEq, Repr

/-- A node of the document tree: a text leaf, or an element with its `type`, its optional
`url` property and its `children` array. -/
inductive Node where
  | text (leaf : TextSpan)
  | element (type : String) (url : Option String) (children : List Node)

/-! ## JavaScript value conventions -/

/-- Truthiness of an optional string property, as tested by `if (node.color)`:
`undefined` and the empty string are falsy, every other string is truthy. -/
def truthy : Option String → Bool
  | none => false
  | some s => decide (s ≠ "")

/-- String conversion of an optional string, as done by a template literal
`${v}` and by `'' + v`: `undefined` becomes the text `undefined`. -/
def jsToString : Option String → String
  | none => "undefined"
  | some s => s

/-- Property lookup `map[key]` in one of the two tables, for a key property that may be
missing: `undefined` when the lookup finds no property of that name. -/
def lookup (map : String → Option String) (key : Option String) : Option String :=
  key.bind map

/-! ## The escaping utility -/

/-- The entity a single character is replaced by (the character itself when it is not
one of the five special characters). -/
def escapeChar (c : Char) : List Char :=
  if c = '"' then "&quot;".data
  else if c = '&' then "&amp;".data
  else if c = '\'' then "&#39;".data
  else if c = '<' then "&lt;".data
  else if c = '>' then "&gt;".data
  else [c]

/-- Escaping of a sequence of characters, left to right. -/
def escapeChars : List Char → List Char
  | [] => []
  | c :: cs => escapeChar c ++ escapeChars cs

/-- Modelled from the spec: `escapeHtml` is imported from the package `escape-html`
(line 14 of Editor.jsx), whose source is not among the files of the repository. Section 4.3
of the specification: it replaces the characters `&`, `<`, `>`, double quote and single
quote with their entity equivalents (`&amp;` `&lt;` `&gt;` `&quot;` `&#39;`) and is total
on text. The package converts its argument to a string first (`'' + string`); at a call
whose argument may be `undefined` that conversion is written `jsToString`. -/
def escapeHtml (s : String) : String :=
  String.mk (escapeChars s.data)

/-- The five entities produced by `escapeHtml`. -/
def entities : List (List Char) :=
  ["&amp;".data, "&lt;".data, "&gt;".data, "&quot;".data, "&#39;".data]

/-! ## The serializer -/

mutual
/-- The function `serialize` of Editor.jsx (lines 152-197). -/
def serialize (sizeMap fontFamilyMap : String → Option String) : Node → String
  | .text node =>
    let string := escapeHtml node.text
    if node.bold then "<strong>" ++ string ++ "</strong>"
    else if node.italic then "<em>" ++ string ++ "</em>"
    else if node.underline then "<u>" ++ string ++ "</u>"
    else if truthy node.color then
      "<span style= \"color: " ++ jsToString node.color ++ "\">" ++ string ++ "</span>"
    else if truthy node.fontSize then
      let size := lookup sizeMap node.fontSize
      "<span style= \"font-size: " ++ jsToString size ++ "\">" ++ string ++ "</span>"
    else if truthy node.fontFamily then
      let family := lookup fontFamilyMap node.fontFamily
      "<span style=\" font-family: " ++ jsToString family ++ "\">" ++ string ++ "</span>"
    else string
  | .element type url cs =>
    let children := serializeChildren sizeMap fontFamilyMap cs
    match type with
    | "headingOne" => "<h1>" ++ children ++ "</h1>"
    | "headingTwo" => "<h2>" ++ children ++ "</h2>"
    | "headingThree" => "<h3>" ++ children ++ "</h3>"
    | "alignCenter" => "<div style=\"text-align: center\" >" ++ children ++ "</div>"
    | "alignLeft" => "<div style=\"text-align: left\" >" ++ children ++ "</div>"
    | "alignRight" => "<div style=\"text-align: right\" >" ++ children ++ "</div>"
    | "blockquote" => "<blockquote><p>" ++ children ++ "</p></blockquote>"
    | "paragraph" => "<p>" ++ children ++ "</p>"
    | "link" => "<a href=\"" ++ escapeHtml (jsToString url) ++ "\">" ++ children ++ "</a>"
    | _ => children
/-- The expression `node.children.map((n) => serialize(n)).join("")` of line 173: the
serialisations of the children, in order, concatenated with the empty separator. -/
def serializeChildren (sizeMap fontFamilyMap : String → Option String) : List Node → String
  | [] => ""
  | c :: cs => serialize sizeMap fontFamilyMap c ++ serializeChildren sizeMap fontFamilyMap cs
end

/-- The document-level loop of the effect (lines 204-209): starting from `<div>`, every
top-level node appends `<br/>` and its serialisation; `</div>` is appended at the end. -/
def serializeDocument (sizeMap fontFamilyMap : String → Option String)
    (value : List Node) : String :=
  value.foldl (fun texthtml n => texthtml ++ "<br/>" ++ serialize sizeMap fontFamilyMap n)
    "<div>" ++ "</div>"

/-- The nine kinds that have a case of their own in the `switch` of `serialize`. -/
def serializedKinds : List String :=
  ["headingOne", "headingTwo", "headingThree", "alignCenter", "alignLeft", "alignRight",
    "blockquote", "paragraph", "link"]

/-- Joining of strings with a separator placed between consecutive items only, as the
specification words the document-level entry point ("joins the results with a block
separator"). -/
def joinSep (sep : String) : List String → String
  | [] => ""
  | [a] => a
  | a :: b :: rest => a ++ sep ++ joinSep sep (b :: rest)

/-- The document-level output as the specification words it (section 4.5, step 3): the
serialised top-level nodes joined with the line break, inside one enclosing container. -/
def joinedDocument (sizeMap fontFamilyMap : String → Option String)
    (value : List Node) : String :=
  "<div>" ++ joinSep "<br/>" (value.map (serialize sizeMap fontFamilyMap)) ++ "</div>"

/-! ## Sample tables

The tables of a typical configuration, used to evaluate the serializer on concrete
documents. Every general statement below holds for arbitrary tables. -/

/-- A sample size table. -/
def sampleSizeMap : String → Option String
  | "small" => some "0.75em"
  | "normal" => some "1em"
  | "medium" => some "1.75em"
  | "huge" => some "2.5em"
  | _ => none

/-- A sample font family table. -/
def sampleFontFamilyMap : String → Option String
  | "sans" => some "Helvetica,Arial, sans serif"
  | "serif" => some "Georgia, Times New Roaman,serif"
  | "monospace" => some "Monaco, Courier New,monospace"
  | _ => none

/-! ## Live render

The elements built by the JSX of `Element` and `Leaf`. `A` is the type of the `attributes`
object handed in by the editing surface and `C` the type of the already rendered
`children`; both are passed on as they are. -/

/-- A React element description: the rendered children handed in (`{children}`), a host
element with its plain props, its `style` object, the spread `attributes` (when the JSX
has `{...attributes}`) and its one child, or a component of the repository called with
the whole props (`<Link {...props} />`). -/
inductive VNode (A C : Type) where
  | given (children : C)
  | el (tag : String) (props : List (String × String))
      (style : List (String × Option String)) (attributes : Option A) (child : VNode A C)
  | component (name : String) (attributes : A) (children : C) (element : Node)

/-- The `type` property of a node (`element.type`); a text leaf has none. -/
def nodeType : Node → Option String
  | .text _ => none
  | .element type _ _ => some type

/-- The component `Element` of Editor.jsx (lines 16-85). A node without a `type`
property matches no `case` and takes the `default` branch. -/
def Element {A C : Type} (attributes : A) (children : C) (element : Node) : VNode A C :=
  match nodeType element with
  | none => .el "p" [] [] (some attributes) (.given children)
  | some type =>
    match type with
    | "headingOne" => .el "h1" [] [] (some attributes) (.given children)
    | "headingTwo" => .el "h2" [] [] (some attributes) (.given children)
    | "headingThree" => .el "h3" [] [] (some attributes) (.given children)
    | "blockquote" => .el "blockquote" [] [] (some attributes) (.given children)
    | "alignLeft" =>
      .el "div" [] [("textAlign", some "left"), ("listStylePosition", some "inside")]
        (some attributes) (.given children)
    | "alignCenter" =>
      .el "div" [] [("textAlign", some "center"), ("listStylePosition", some "inside")]
        (some attributes) (.given children)
    | "alignRight" =>
      .el "div" [] [("textAlign", some "right"), ("listStylePosition", some "inside")]
        (some attributes) (.given children)
    | "list-item" => .el "li" [] [] (some attributes) (.given children)
    | "orderedList" => .el "ol" [("type", "1")] [] (some attributes) (.given children)
    | "unorderedList" => .el "ul" [] [] (some attributes) (.given children)
    | "link" => .component "Link" attributes children element
    | "table" =>
      .el "table" [] [] none (.el "tbody" [] [] (some attributes) (.given children))
    | "table-row" => .el "tr" [] [] (some attributes) (.given children)
    | "table-cell" => .el "td" [] [] (some attributes) (.given children)
    | "image" => .component "Image" attributes children element
    | "video" => .component "Video" attributes children element
    | _ => .el "p" [] [] (some attributes) (.given children)

/-- The sixteen kinds that have a case of their own in the `switch` of `Element`. -/
def elementKinds : List String :=
  ["headingOne", "headingTwo", "headingThree", "blockquote", "alignLeft", "alignCenter",
    "alignRight", "list-item", "orderedList", "unorderedList", "link", "table", "table-row",
    "table-cell", "image", "video"]

/-- The component `Leaf` of Editor.jsx (lines 87-130): eleven independent `if`s, each
replacing `children` by a wrapper around it, then the final `span`. -/
def Leaf {A C : Type} (sizeMap fontFamilyMap : String → Option String)
    (attributes : A) (children : C) (leaf : TextSpan) : VNode A C :=
  let children : VNode A C := .given children
  let children := if leaf.bold then .el "strong" [] [] none children else children
  let children := if leaf.code then .el "code" [] [] none children else children
  let children := if leaf.italic then .el "em" [] [] none children else children
  let children :=
    if leaf.strikethrough then
      .el "span" [] [("textDecoration", some "line-through")] none children
    else children
  let children := if leaf.underline then .el "u" [] [] none children else children
  let children := if leaf.superscript then .el "sup" [] [] none children else children
  let children := if leaf.subscript then .el "sub" [] [] none children else children
  let children :=
    if truthy leaf.color then .el "span" [] [("color", leaf.color)] none children
    else children
  let children :=
    if truthy leaf.bgColor then
      .el "span" [] [("backgroundColor", leaf.bgColor)] none children
    else children
  let children :=
    if truthy leaf.fontSize then
      let size := lookup sizeMap leaf.fontSize
      .el "span" [] [("fontSize", size)] none children
    else children
  let children :=
    if truthy leaf.fontFamily then
      let family := lookup fontFamilyMap leaf.fontFamily
      .el "span" [] [("fontFamily", family)] none children
    else children
  .el "span" [] [] (some attributes) children

/-! ## Marks -/

/-- The eleven marks of a text span, named as the properties of the leaf. -/
inductive Mark where
  | bold | code | italic | strikethrough | underline | superscript | subscript
  | color | bgColor | fontSize | fontFamily
deriving DecidableEq, Repr

/-- The fixed chain of the marks, in the order the `if`s of `Leaf` are written. -/
def markChain : List Mark :=
  [.bold, .code, .italic, .strikethrough, .underline, .superscript, .subscript,
    .color, .bgColor, .fontSize, .fontFamily]

/-- The order in which the `else if` chain of `serialize` tests the marks. -/
def serializePriority : List Mark :=
  [.bold, .italic, .underline, .color, .fontSize, .fontFamily]

/-- A mark is present on a leaf when its property is truthy. -/
def present (leaf : TextSpan) : Mark → Bool
  | .bold => leaf.bold
  | .code => leaf.code
  | .italic => leaf.italic
  | .strikethrough => leaf.strikethrough
  | .underline => leaf.underline
  | .superscript => leaf.superscript
  | .subscript => leaf.subscript
  | .color => truthy leaf.color
  | .bgColor => truthy leaf.bgColor
  | .fontSize => truthy leaf.fontSize
  | .fontFamily => truthy leaf.fontFamily

/-- The wrapper `Leaf` puts around `inner` for one mark (lines 88-128). -/
def leafWrap {A C : Type} (sizeMap fontFamilyMap : String → Option String)
    (leaf : TextSpan) (inner : VNode A C) : Mark → VNode A C
  | .bold => .el "strong" [] [] none inner
  | .code => .el "code" [] [] none inner
  | .italic => .el "em" [] [] none inner
  | .strikethrough => .el "span" [] [("textDecoration", some "line-through")] none inner
  | .underline => .el "u" [] [] none inner
  | .superscript => .el "sup" [] [] none inner
  | .subscript => .el "sub" [] [] none inner
  | .color => .el "span" [] [("color", leaf.color)] none inner
  | .bgColor => .el "span" [] [("backgroundColor", leaf.bgColor)] none inner
  | .fontSize => .el "span" [] [("fontSize", lookup sizeMap leaf.fontSize)] none inner
  | .fontFamily => .el "span" [] [("fontFamily", lookup fontFamilyMap leaf.fontFamily)] none inner

/-- The wrapper `serialize` puts around `string` for one mark (lines 155-169); the five
marks `serialize` has no branch for leave the string as it is. -/
def serializeWrap (sizeMap fontFamilyMap : String → Option String)
    (leaf : TextSpan) (string : String) : Mark → String
  | .bold => "<strong>" ++ string ++ "</strong>"
  | .italic => "<em>" ++ string ++ "</em>"
  | .underline => "<u>" ++ string ++ "</u>"
  | .color => "<span style= \"color: " ++ jsToString leaf.color ++ "\">" ++ string ++ "</span>"
  | .fontSize =>
    "<span style= \"font-size: " ++ jsToString (lookup sizeMap leaf.fontSize) ++ "\">"
      ++ string ++ "</span>"
  | .fontFamily =>
    "<span style=\" font-family: " ++ jsToString (lookup fontFamilyMap leaf.fontFamily) ++ "\">"
      ++ string ++ "</span>"
  | _ => string

/-- The number of host elements nested around the rendered children. -/
def VNode.wrappers {A C : Type} : VNode A C → Nat
  | .given _ => 0
  | .el _ _ _ _ child => child.wrappers + 1
  | .component _ _ _ _ => 0

/-- The tags of the host elements nested around the rendered children, outermost first. -/
def VNode.tags {A C : Type} : VNode A C → List String
  | .given _ => []
  | .el tag _ _ _ child => tag :: child.tags
  | .component name _ _ _ => [name]

/-! ## Depth of the recursion -/

mutual
/-- The nesting depth of a tree: the number of nested calls of `serialize` it causes. -/
def Node.depth : Node → Nat
  | .text _ => 1
  | .element _ _ cs => Node.depthList cs + 1
/-- The largest nesting depth among the trees of a list. -/
def Node.depthList : List Node → Nat
  | [] => 0
  | c :: cs => max (Node.depth c) (Node.depthList cs)
end

/-- The text branch of `serialize` (lines 154-170), on its own. -/
def serializeText (sizeMap fontFamilyMap : String → Option String) (node : TextSpan) : String :=
  let string := escapeHtml node.text
  if node.bold then "<strong>" ++ string ++ "</strong>"
  else if node.italic then "<em>" ++ string ++ "</em>"
  else if node.underline then "<u>" ++ string ++ "</u>"
  else if truthy node.color then
    "<span style= \"color: " ++ jsToString node.color ++ "\">" ++ string ++ "</span>"
  else if truthy node.fontSize then
    let size := lookup sizeMap node.fontSize
    "<span style= \"font-size: " ++ jsToString size ++ "\">" ++ string ++ "</span>"
  else if truthy node.fontFamily then
    let family := lookup fontFamilyMap node.fontFamily
    "<span style=\" font-family: " ++ jsToString family ++ "\">" ++ string ++ "</span>"
  else string

/-- The `switch` of `serialize` (lines 175-196), on its own: the kind rule applied to the
string `children`. -/
def serializeKind (type : String) (url : Option String) (children : String) : String :=
  match type with
  | "headingOne" => "<h1>" ++ children ++ "</h1>"
  | "headingTwo" => "<h2>" ++ children ++ "</h2>"
  | "headingThree" => "<h3>" ++ children ++ "</h3>"
  | "alignCenter" => "<div style=\"text-align: center\" >" ++ children ++ "</div>"
  | "alignLeft" => "<div style=\"text-align: left\" >" ++ children ++ "</div>"
  | "alignRight" => "<div style=\"text-align: right\" >" ++ children ++ "</div>"
  | "blockquote" => "<blockquote><p>" ++ children ++ "</p></blockquote>"
  | "paragraph" => "<p>" ++ children ++ "</p>"
  | "link" => "<a href=\"" ++ escapeHtml (jsToString url) ++ "\">" ++ children ++ "</a>"
  | _ => children

/-- The error a call of `serialize` can end with: the `RangeError` the engine throws when
its call stack is exhausted. -/
inductive JsError where
  | rangeError
deriving DecidableEq, Repr

/-- The map-and-join of line 173 over calls that may throw: the children are serialised in
order, the first call that throws ends the whole expression with its error, and otherwise
the results are concatenated. -/
def joinCalls (call : Node → Except JsError String) : List Node → Except JsError String
  | [] => .ok ""
  | c :: cs =>
    match call c with
    | .error e => .error e
    | .ok a =>
      match joinCalls call cs with
      | .error e => .error e
      | .ok b => .ok (a ++ b)

/-- The function `serialize` run on a call stack that has room for `stack` nested calls of
`serialize`: a call made when no room is left throws `RangeError`, every other call
does what lines 153-196 say, each child being serialised one level deeper. -/
def serializeOnStack (sizeMap fontFamilyMap : String → Option String) :
    Nat → Node → Except JsError String
  | 0, _ => .error .rangeError
  | _ + 1, .text node => .ok (serializeText sizeMap fontFamilyMap node)
  | stack + 1, .element type url cs =>
    match joinCalls (serializeOnStack sizeMap fontFamilyMap stack) cs with
    | .ok children => .ok (serializeKind type url children)
    | .error e => .error e

/-- A chain of `k` nested paragraphs around the text `x`: a finite tree of depth `k + 1`. -/
def nest : Nat → Node
  | 0 => .text { text := "x" }
  | k + 1 => .element "paragraph" none [nest k]

/-- The part of the document-level output between `<div>` and `</div>`: every top-level
result with the line break before it. -/
def documentBody (sizeMap fontFamilyMap : String → Option String)
    (value : List Node) : String :=
  String.join (value.map (fun n => "<br/>" ++ serialize sizeMap fontFamilyMap n))

/-! ## Properties of the escaping utility -/

theorem escapeChars_append (xs ys : List Char) :
    escapeChars (xs ++ ys) = escapeChars xs ++ escapeChars ys := by
  induction xs with
  | nil => rfl
  | cons c cs ih => simp [escapeChars, ih]

theorem escapeChar_no_markup (c x : Char)
    (hx : x = '<' ∨ x = '>' ∨ x = '"' ∨ x = '\'') : x ∉ escapeChar c := by
  unfold escapeChar
  split_ifs with h1 h2 h3 h4 h5
  · rcases hx with h | h | h | h <;> subst h <;> decide
  · rcases hx with h | h | h | h <;> subst h <;> decide
  · rcases hx with h | h | h | h <;> subst h <;> decide
  · rcases hx with h | h | h | h <;> subst h <;> decide
  · rcases hx with h | h | h | h <;> subst h <;> decide
  · intro hmem
    have hxc : x = c := by simpa using hmem
    subst hxc
    rcases hx with h | h | h | h <;> contradiction

theorem escapeChars_no_markup (l : List Char) (x : Char)
    (hx : x = '<' ∨ x = '>' ∨ x = '"' ∨ x = '\'') : x ∉ escapeChars l := by
  induction l with
  | nil => simp [escapeChars]
  | cons c cs ih =>
    simp only [escapeChars, List.mem_append, not_or]
    exact ⟨escapeChar_no_markup c x hx, ih⟩

theorem escapeChars_amp (l : List Char) :
    ∀ i : Nat, (escapeChars l)[i]? = some '&' →
      ∃ e ∈ entities, e <+: (escapeChars l).drop i := by
  induction l with
  | nil => intro i h; simp [escapeChars] at h
  | cons c cs ih =>
    intro i h
    simp only [escapeChars] at h ⊢
    unfold escapeChar at h ⊢
    split_ifs at h ⊢ with h1 h2 h3 h4 h5
    · rcases i with _ | _ | _ | _ | _ | _ | i
      · exact ⟨"&quot;".data, by simp [entities], by simp⟩
      all_goals first
        | (exfalso; revert h; simp; done)
        | (simp at h ⊢; exact ih i h)
    · rcases i with _ | _ | _ | _ | _ | i
      · exact ⟨"&amp;".data, by simp [entities], by simp⟩
      all_goals first
        | (exfalso; revert h; simp; done)
        | (simp at h ⊢; exact ih i h)
    · rcases i with _ | _ | _ | _ | _ | i
      · exact ⟨"&#39;".data, by simp [entities], by simp⟩
      all_goals first
        | (exfalso; revert h; simp; done)
        | (simp at h ⊢; exact ih i h)
    · rcases i with _ | _ | _ | _ | i
      · exact ⟨"&lt;".data, by simp [entities], by simp⟩
      all_goals first
        | (exfalso; revert h; simp; done)
        | (simp at h ⊢; exact ih i h)
    · rcases i with _ | _ | _ | _ | i
      · exact ⟨"&gt;".data, by simp [entities], by simp⟩
      all_goals first
        | (exfalso; revert h; simp; done)
        | (simp at h ⊢; exact ih i h)
    · rcases i with _ | i
      · simp at h; exact absurd h h2
      · simp at h ⊢; exact ih i h

theorem escapeChars_eq_flatMap (l : List Char) :
    escapeChars l = l.flatMap escapeChar := by
  induction l with
  | nil => rfl
  | cons c cs ih => simp [escapeChars, ih]

theorem escapeChar_of_not_special (c : Char)
    (h : c ≠ '&' ∧ c ≠ '<' ∧ c ≠ '>' ∧ c ≠ '"' ∧ c ≠ '\'') : escapeChar c = [c] := by
  obtain ⟨h1, h2, h3, h4, h5⟩ := h
  simp [escapeChar, h1, h2, h3, h4, h5]

/-! ## Text leaves -/

/-- C1: a text span with text `t` and no mark set serialises to exactly `escapeHtml t`,
where the escape replaces each of the five characters `&`, `<`, `>`, double quote and
single quote by its entity and leaves every other character unchanged; hence the output
has no `<`, `>`, double quote or single quote, and every `&` of the output starts one of
the five entities. -/
theorem serialize_unmarked_text (sizeMap fontFamilyMap : String → Option String)
    (t : String) :
    serialize sizeMap fontFamilyMap (.text { text := t }) = escapeHtml t
    ∧ escapeHtml t = String.mk (t.data.flatMap escapeChar)
    ∧ (escapeChar '&' = "&amp;".data ∧ escapeChar '<' = "&lt;".data
        ∧ escapeChar '>' = "&gt;".data ∧ escapeChar '"' = "&quot;".data
        ∧ escapeChar '\'' = "&#39;".data
        ∧ ∀ c : Char, c ≠ '&' ∧ c ≠ '<' ∧ c ≠ '>' ∧ c ≠ '"' ∧ c ≠ '\'' →
            escapeChar c = [c])
    ∧ (∀ x : Char, x = '<' ∨ x = '>' ∨ x = '"' ∨ x = '\'' →
        x ∉ (serialize sizeMap fontFamilyMap (.text { text := t })).data)
    ∧ (∀ i : Nat, (serialize sizeMap fontFamilyMap (.text { text := t })).data[i]? = some '&' →
        ∃ e ∈ entities,
          e <+: (serialize sizeMap fontFamilyMap (.text { text := t })).data.drop i) := by
  have hs : serialize sizeMap fontFamilyMap (.text { text := t }) = escapeHtml t := by
    simp [serialize, truthy]
  refine ⟨hs, ?_, ?_, ?_, ?_⟩
  · simp [escapeHtml, escapeChars_eq_flatMap]
  · exact ⟨by decide, by decide, by decide, by decide, by decide,
      escapeChar_of_not_special⟩
  · intro x hx
    rw [hs]
    exact escapeChars_no_markup t.data x hx
  · intro i hi
    rw [hs] at hi ⊢
    exact escapeChars_amp t.data i hi

/-- The text `a<b & "c"` without marks: every special character is replaced. -/
theorem serialize_unmarked_text_witness :
    serialize sampleSizeMap sampleFontFamilyMap (.text { text := "a<b & \"c\"" })
      = "a&lt;b &amp; &quot;c&quot;" :=
  (serialize_unmarked_text sampleSizeMap sampleFontFamilyMap "a<b & \"c\"").1.trans
    (by decide)

/-- C2: on the span with text `hi` and the marks bold and italic, `serialize` stops at the
first branch of its `else if` chain: the output is the `<strong>` wrapper alone, and no
`<em>` wrapper occurs in it. -/
theorem serialize_bold_italic :
    serialize sampleSizeMap sampleFontFamilyMap
        (.text { text := "hi", bold := true, italic := true }) = "<strong>hi</strong>"
    ∧ ¬ ("<em>".data <:+: (serialize sampleSizeMap sampleFontFamilyMap
        (.text { text := "hi", bold := true, italic := true })).data) := by
  decide

/-- C3: on a span whose colour is the text `"><script>`, `serialize` places the colour in the
style attribute as it is: the double quote and the angle brackets of the colour reach the
output unescaped. -/
theorem serialize_color_raw :
    serialize sampleSizeMap sampleFontFamilyMap
        (.text { text := "x", color := some "\"><script>" })
      = "<span style= \"color: \"><script>\">x</span>"
    ∧ serialize sampleSizeMap sampleFontFamilyMap
        (.text { text := "x", color := some "\"><script>" })
      ≠ "<span style= \"color: " ++ escapeHtml "\"><script>" ++ "\">x</span>" := by
  decide

/-! ## Element nodes -/

/-- C4: a link node with url `u` serialises to exactly
`<a href="` ++ `escapeHtml u` ++ `">` ++ C ++ `</a>`, where C is the concatenation of the
serialised children; the href value holds no raw double quote; and the url
`javascript:alert(1)` with the child text `click` gives
`<a href="javascript:alert(1)">click</a>`. -/
theorem serialize_link (sizeMap fontFamilyMap : String → Option String) :
    (∀ (u : String) (cs : List Node),
      serialize sizeMap fontFamilyMap (.element "link" (some u) cs)
        = "<a href=\"" ++ escapeHtml u ++ "\">" ++ serializeChildren sizeMap fontFamilyMap cs
            ++ "</a>")
    ∧ (∀ u : String, '"' ∉ (escapeHtml u).data)
    ∧ serialize sizeMap fontFamilyMap
        (.element "link" (some "javascript:alert(1)") [.text { text := "click" }])
        = "<a href=\"javascript:alert(1)\">click</a>" := by
  refine ⟨?_, ?_, ?_⟩
  · intro u cs
    simp [serialize, jsToString]
  · intro u
    exact escapeChars_no_markup u.data '"' (by simp)
  · simp [serialize, serializeChildren, jsToString, truthy]
    decide

/-- C5 as the code has it: a link node without a `url` property serialises, without
failing, to an anchor whose href is the text `undefined`:
`<a href="undefined">` ++ C ++ `</a>`. -/
theorem serialize_link_without_url (sizeMap fontFamilyMap : String → Option String)
    (cs : List Node) :
    serialize sizeMap fontFamilyMap (.element "link" none cs)
      = "<a href=\"undefined\">" ++ serializeChildren sizeMap fontFamilyMap cs ++ "</a>" := by
  simp only [serialize, jsToString]
  have h : escapeHtml "undefined" = "undefined" := by decide
  rw [h]
  simp [String.append_assoc]

/-- C5 fails as stated: the link node without url and with the child text `click` does not
serialise to the anchor with the empty href. -/
theorem serialize_link_without_url_counterexample :
    serialize sampleSizeMap sampleFontFamilyMap
        (.element "link" none [.text { text := "click" }])
      ≠ "<a href=\"\">click</a>" := by
  decide

/-- C6: the heading, blockquote and paragraph kinds wrap the concatenation C of the
serialised children in exactly `<h1>C</h1>`, `<h2>C</h2>`, `<h3>C</h3>`,
`<blockquote><p>C</p></blockquote>` and `<p>C</p>`; a `headingOne` node holding the text
`Title` serialises to exactly `<h1>Title</h1>`. -/
theorem serialize_block_kinds (sizeMap fontFamilyMap : String → Option String) :
    (∀ (url : Option String) (cs : List Node),
      serialize sizeMap fontFamilyMap (.element "headingOne" url cs)
          = "<h1>" ++ serializeChildren sizeMap fontFamilyMap cs ++ "</h1>"
      ∧ serialize sizeMap fontFamilyMap (.element "headingTwo" url cs)
          = "<h2>" ++ serializeChildren sizeMap fontFamilyMap cs ++ "</h2>"
      ∧ serialize sizeMap fontFamilyMap (.element "headingThree" url cs)
          = "<h3>" ++ serializeChildren sizeMap fontFamilyMap cs ++ "</h3>"
      ∧ serialize sizeMap fontFamilyMap (.element "blockquote" url cs)
          = "<blockquote><p>" ++ serializeChildren sizeMap fontFamilyMap cs
              ++ "</p></blockquote>"
      ∧ serialize sizeMap fontFamilyMap (.element "paragraph" url cs)
          = "<p>" ++ serializeChildren sizeMap fontFamilyMap cs ++ "</p>")
    ∧ serialize sizeMap fontFamilyMap
        (.element "headingOne" none [.text { text := "Title" }]) = "<h1>Title</h1>" := by
  refine ⟨?_, ?_⟩
  · intro url cs
    simp [serialize]
  · simp [serialize, serializeChildren, truthy]
    decide

/-- C7 as the code has it: the three alignment kinds wrap the concatenation C of the
serialised children in `<div style="text-align: X" >C</div>` with X = left, center, right:
the opening tag has one space between the closing quote of the style and `>`. -/
theorem serialize_align (sizeMap fontFamilyMap : String → Option String)
    (url : Option String) (cs : List Node) :
    serialize sizeMap fontFamilyMap (.element "alignLeft" url cs)
        = "<div style=\"text-align: left\" >" ++ serializeChildren sizeMap fontFamilyMap cs
            ++ "</div>"
    ∧ serialize sizeMap fontFamilyMap (.element "alignCenter" url cs)
        = "<div style=\"text-align: center\" >" ++ serializeChildren sizeMap fontFamilyMap cs
            ++ "</div>"
    ∧ serialize sizeMap fontFamilyMap (.element "alignRight" url cs)
        = "<div style=\"text-align: right\" >" ++ serializeChildren sizeMap fontFamilyMap cs
            ++ "</div>" := by
  simp [serialize]

/-- C7 fails as stated: an `alignCenter` node holding the text `x` does not serialise to
`<div style="text-align: center">x</div>`; its output has a space before `>`. -/
theorem serialize_align_counterexample :
    serialize sampleSizeMap sampleFontFamilyMap
        (.element "alignCenter" none [.text { text := "x" }])
      ≠ "<div style=\"text-align: center\">x</div>"
    ∧ serialize sampleSizeMap sampleFontFamilyMap
        (.element "alignCenter" none [.text { text := "x" }])
      = "<div style=\"text-align: center\" >x</div>" := by
  decide

/-- C8: a node whose kind is none of the nine kinds of the `switch` serialises to exactly
the concatenation of its children's serialisations, with no wrapper. -/
theorem serialize_other_kind (sizeMap fontFamilyMap : String → Option String)
    (type : String) (url : Option String) (cs : List Node)
    (h : type ∉ serializedKinds) :
    serialize sizeMap fontFamilyMap (.element type url cs)
      = serializeChildren sizeMap fontFamilyMap cs := by
  simp only [serializedKinds, List.mem_cons, List.mem_singleton, not_or,
    List.mem_nil_iff, not_false_eq_true, and_true] at h
  obtain ⟨h1, h2, h3, h4, h5, h6, h7, h8, h9⟩ := h
  simp [serialize, h1, h2, h3, h4, h5, h6, h7, h8, h9]

/-- A table holding one row holding one cell holding the text `x` serialises to exactly `x`
(and so does the misspelt kind `paragaph`). -/
theorem serialize_other_kind_witness :
    "table" ∉ serializedKinds
    ∧ serialize sampleSizeMap sampleFontFamilyMap
        (.element "table" none
          [.element "table-row" none [.element "table-cell" none [.text { text := "x" }]]])
        = "x"
    ∧ serialize sampleSizeMap sampleFontFamilyMap
        (.element "paragaph" none [.text { text := "x" }]) = "x"
    ∧ (∀ k ∈ ["table", "table-row", "table-cell", "list-item", "orderedList",
        "unorderedList", "image", "video", "paragaph"], k ∉ serializedKinds) :=
  ⟨by decide,
    (serialize_other_kind sampleSizeMap sampleFontFamilyMap "table" none
      [.element "table-row" none [.element "table-cell" none [.text { text := "x" }]]]
      (by decide)).trans (by decide),
    (serialize_other_kind sampleSizeMap sampleFontFamilyMap "paragaph" none
      [.text { text := "x" }] (by decide)).trans (by decide),
    by decide⟩

/-! ## Children and the document level -/

theorem serializeChildren_append (sizeMap fontFamilyMap : String → Option String)
    (xs ys : List Node) :
    serializeChildren sizeMap fontFamilyMap (xs ++ ys)
      = serializeChildren sizeMap fontFamilyMap xs
          ++ serializeChildren sizeMap fontFamilyMap ys := by
  induction xs with
  | nil => simp [serializeChildren]
  | cons c cs ih => simp [serializeChildren, ih, String.append_assoc]

theorem serializeChildren_eq_join (sizeMap fontFamilyMap : String → Option String)
    (cs : List Node) :
    serializeChildren sizeMap fontFamilyMap cs
      = String.join (cs.map (serialize sizeMap fontFamilyMap)) := by
  apply String.ext
  rw [String.join_eq]
  induction cs with
  | nil => simp [serializeChildren]
  | cons c cs ih => simp [serializeChildren, String.data_append, ih]

theorem document_loop (sizeMap fontFamilyMap : String → Option String)
    (ns : List Node) : ∀ (n : Node) (acc : String),
    (n :: ns).foldl
        (fun texthtml m => texthtml ++ "<br/>" ++ serialize sizeMap fontFamilyMap m) acc
      = acc ++ "<br/>"
          ++ joinSep "<br/>" ((n :: ns).map (serialize sizeMap fontFamilyMap)) := by
  induction ns with
  | nil => intro n acc; simp [joinSep]
  | cons m ms ih =>
    intro n acc
    rw [List.foldl_cons, ih m]
    simp [joinSep, String.append_assoc]

/-- C9 as the code has it: the document-level loop serialises the top-level nodes in
document order inside one container and puts the line break before every result: the
empty document gives `<div></div>`, and a document of k >= 1 nodes gives
`<div>` ++ `<br/>` ++ s1 ++ `<br/>` ++ ... ++ `<br/>` ++ sk ++ `</div>`, the separator
standing before the first result as well as between consecutive results. -/
theorem serializeDocument_separator (sizeMap fontFamilyMap : String → Option String) :
    serializeDocument sizeMap fontFamilyMap [] = "<div></div>"
    ∧ ∀ (n : Node) (ns : List Node),
        serializeDocument sizeMap fontFamilyMap (n :: ns)
          = "<div>" ++ "<br/>"
              ++ joinSep "<br/>" ((n :: ns).map (serialize sizeMap fontFamilyMap))
              ++ "</div>" := by
  refine ⟨by simp [serializeDocument], ?_⟩
  intro n ns
  unfold serializeDocument
  rw [document_loop]

/-- C9 fails as stated: for the document of the two paragraphs `a` and `b` the loop gives
`<div><br/><p>a</p><br/><p>b</p></div>`, not the joined form
`<div><p>a</p><br/><p>b</p></div>`. -/
theorem serializeDocument_counterexample :
    serializeDocument sampleSizeMap sampleFontFamilyMap
        [.element "paragraph" none [.text { text := "a" }],
          .element "paragraph" none [.text { text := "b" }]]
      = "<div><br/><p>a</p><br/><p>b</p></div>"
    ∧ joinedDocument sampleSizeMap sampleFontFamilyMap
        [.element "paragraph" none [.text { text := "a" }],
          .element "paragraph" none [.text { text := "b" }]]
      = "<div><p>a</p><br/><p>b</p></div>"
    ∧ serializeDocument sampleSizeMap sampleFontFamilyMap
        [.element "paragraph" none [.text { text := "a" }],
          .element "paragraph" none [.text { text := "b" }]]
      ≠ joinedDocument sampleSizeMap sampleFontFamilyMap
        [.element "paragraph" none [.text { text := "a" }],
          .element "paragraph" none [.text { text := "b" }]] := by
  decide

/-- C10: the string C(cs) handed to the kind rule is the concatenation, in order and with
no separator, of the serialised children: C([]) is empty, C([c]) is `serialize c`,
C(xs ++ ys) = C(xs) ++ C(ys), C(cs) is the join of the mapped list, and the serialisation
of an element node depends on its children only through C. -/
theorem serializeChildren_hom (sizeMap fontFamilyMap : String → Option String) :
    serializeChildren sizeMap fontFamilyMap [] = ""
    ∧ (∀ c : Node, serializeChildren sizeMap fontFamilyMap [c]
        = serialize sizeMap fontFamilyMap c)
    ∧ (∀ xs ys : List Node, serializeChildren sizeMap fontFamilyMap (xs ++ ys)
        = serializeChildren sizeMap fontFamilyMap xs
            ++ serializeChildren sizeMap fontFamilyMap ys)
    ∧ (∀ cs : List Node, serializeChildren sizeMap fontFamilyMap cs
        = String.join (cs.map (serialize sizeMap fontFamilyMap)))
    ∧ (∀ (type : String) (url : Option String) (cs ds : List Node),
        serializeChildren sizeMap fontFamilyMap cs
            = serializeChildren sizeMap fontFamilyMap ds →
        serialize sizeMap fontFamilyMap (.element type url cs)
            = serialize sizeMap fontFamilyMap (.element type url ds)) := by
  refine ⟨by simp [serializeChildren], ?_, serializeChildren_append sizeMap fontFamilyMap,
    serializeChildren_eq_join sizeMap fontFamilyMap, ?_⟩
  · intro c
    simp [serializeChildren]
  · intro type url cs ds h
    simp only [serialize, h]

/-- Two different children lists with the same concatenation, `ab` then `c` and `a` then
`bc`, give the same heading; and the order of the children is kept. -/
theorem serializeChildren_hom_witness :
    serialize sampleSizeMap sampleFontFamilyMap
        (.element "headingOne" none [.text { text := "ab" }, .text { text := "c" }])
      = serialize sampleSizeMap sampleFontFamilyMap
        (.element "headingOne" none [.text { text := "a" }, .text { text := "bc" }])
    ∧ serializeChildren sampleSizeMap sampleFontFamilyMap
        [.text { text := "a" }, .text { text := "b", bold := true }]
      = "a<strong>b</strong>" :=
  ⟨(serializeChildren_hom sampleSizeMap sampleFontFamilyMap).2.2.2.2 "headingOne" none
      [.text { text := "ab" }, .text { text := "c" }]
      [.text { text := "a" }, .text { text := "bc" }] (by decide),
    by decide⟩

/-! ## The serializer and its two parts -/

theorem serialize_text_eq (sizeMap fontFamilyMap : String → Option String) (node : TextSpan) :
    serialize sizeMap fontFamilyMap (.text node) = serializeText sizeMap fontFamilyMap node := by
  simp only [serialize, serializeText]

theorem serialize_element_eq (sizeMap fontFamilyMap : String → Option String)
    (type : String) (url : Option String) (cs : List Node) :
    serialize sizeMap fontFamilyMap (.element type url cs)
      = serializeKind type url (serializeChildren sizeMap fontFamilyMap cs) := by
  simp only [serialize, serializeKind]

/-! ## Live render of a leaf -/

theorem foldl_filter_eq {α β : Type} (p : α → Bool) (f : β → α → β) (l : List α) :
    ∀ x : β, (l.filter p).foldl f x = l.foldl (fun acc a => if p a then f acc a else acc) x := by
  induction l with
  | nil => intro x; rfl
  | cons a as ih =>
    intro x
    by_cases h : p a = true
    · simp [List.filter_cons, h, ih]
    · simp [List.filter_cons, h, ih]

theorem leafWrap_wrappers {A C : Type} (sizeMap fontFamilyMap : String → Option String)
    (leaf : TextSpan) (inner : VNode A C) (m : Mark) :
    (leafWrap sizeMap fontFamilyMap leaf inner m).wrappers = inner.wrappers + 1 := by
  cases m <;> rfl

theorem foldl_leafWrap_wrappers {A C : Type} (sizeMap fontFamilyMap : String → Option String)
    (leaf : TextSpan) (ms : List Mark) :
    ∀ inner : VNode A C,
      (ms.foldl (leafWrap sizeMap fontFamilyMap leaf) inner).wrappers
        = inner.wrappers + ms.length := by
  induction ms with
  | nil => intro inner; rfl
  | cons m ms ih =>
    intro inner
    rw [List.foldl_cons, ih, leafWrap_wrappers, List.length_cons]
    omega

theorem leaf_eq_chain {A C : Type} (sizeMap fontFamilyMap : String → Option String)
    (attributes : A) (children : C) (leaf : TextSpan) :
    Leaf sizeMap fontFamilyMap attributes children leaf
      = .el "span" [] [] (some attributes)
          ((markChain.filter (present leaf)).foldl (leafWrap sizeMap fontFamilyMap leaf)
            (.given children)) := by
  rw [foldl_filter_eq]
  rfl

/-- C12: for every mark set, `Leaf` is the final `span` (with the attributes) around the
result of wrapping the rendered children once for every present mark of the chain bold,
code, italic, strikethrough, underline, superscript, subscript, color, backgroundColor,
fontSize, fontFamily, in that order, each wrapper around the result of the earlier ones
(the first present mark innermost, the last outermost) and nothing for an absent mark;
every mark's wrapper is one element, and the number of mark wrappers is the number of
present marks. -/
theorem leaf_wraps_chain {A C : Type} (sizeMap fontFamilyMap : String → Option String)
    (attributes : A) (children : C) (leaf : TextSpan) :
    Leaf sizeMap fontFamilyMap attributes children leaf
      = .el "span" [] [] (some attributes)
          ((markChain.filter (present leaf)).foldl (leafWrap sizeMap fontFamilyMap leaf)
            (.given children))
    ∧ (∀ (inner : VNode A C) (m : Mark),
        (leafWrap sizeMap fontFamilyMap leaf inner m).wrappers = inner.wrappers + 1)
    ∧ (Leaf sizeMap fontFamilyMap attributes children leaf).wrappers
        = (markChain.filter (present leaf)).length + 1
    ∧ markChain
        = [.bold, .code, .italic, .strikethrough, .underline, .superscript, .subscript,
            .color, .bgColor, .fontSize, .fontFamily] := by
  refine ⟨leaf_eq_chain sizeMap fontFamilyMap attributes children leaf,
    leafWrap_wrappers sizeMap fontFamilyMap leaf, ?_, rfl⟩
  rw [leaf_eq_chain]
  simp only [VNode.wrappers, foldl_leafWrap_wrappers]
  omega

/-- A leaf with the marks italic, bold and colour `red`: the wrappers are nested in the
order of the chain, `strong` innermost, inside the final `span`. -/
theorem leaf_wraps_chain_witness :
    (Leaf sampleSizeMap sampleFontFamilyMap () ()
        { text := "hi", italic := true, bold := true, color := some "red" } : VNode Unit Unit)
      = .el "span" [] [] (some ())
          (.el "span" [] [("color", some "red")] none
            (.el "em" [] [] none (.el "strong" [] [] none (.given ()))))
    ∧ (Leaf sampleSizeMap sampleFontFamilyMap () ()
        { text := "hi", italic := true, bold := true, color := some "red" }
          : VNode Unit Unit).wrappers = 4 :=
  ⟨(leaf_wraps_chain sampleSizeMap sampleFontFamilyMap () ()
      { text := "hi", italic := true, bold := true, color := some "red" }).1.trans
      (by simp [markChain, present, truthy, leafWrap]),
    (leaf_wraps_chain sampleSizeMap sampleFontFamilyMap () ()
      { text := "hi", italic := true, bold := true, color := some "red" }).2.2.1.trans
      (by decide)⟩

/-- C11: on the span with text `hi` and the marks bold and italic, `Leaf` nests the
`strong` and the `em` wrapper (marks bold, italic), while `serialize` has the `strong`
wrapper alone; on the span with the mark code, `Leaf` has the `code` wrapper and
`serialize` has none. -/
theorem leaf_serialize_differ :
    (Leaf sampleSizeMap sampleFontFamilyMap () ()
        { text := "hi", bold := true, italic := true } : VNode Unit Unit)
      = .el "span" [] [] (some ()) (.el "em" [] [] none (.el "strong" [] [] none (.given ())))
    ∧ serialize sampleSizeMap sampleFontFamilyMap
        (.text { text := "hi", bold := true, italic := true }) = "<strong>hi</strong>"
    ∧ (Leaf sampleSizeMap sampleFontFamilyMap () () { text := "hi", code := true }
        : VNode Unit Unit)
      = .el "span" [] [] (some ()) (.el "code" [] [] none (.given ()))
    ∧ serialize sampleSizeMap sampleFontFamilyMap (.text { text := "hi", code := true })
      = "hi" := by
  refine ⟨rfl, by decide, rfl, by decide⟩

/-! ## Failed table lookups, unknown kinds, empty alignment nodes -/

/-- When the font-size branch of `serialize` is the one taken (the marks bold, italic,
underline and color are not present, the fontSize key `k` is not empty) and the lookup
of `k` in the size map finds nothing, `serialize` returns
`<span style= "font-size: undefined">` ++ escaped text ++ `</span>`; likewise, when the
font-family branch is the one taken (fontSize not present either) and the lookup in the
family map finds nothing, it returns `<span style=" font-family: undefined">` ++ escaped
text ++ `</span>`. -/
theorem serialize_lookup_undefined (sizeMap fontFamilyMap : String → Option String)
    (leaf : TextSpan) (k : String) (hk : k ≠ "")
    (hb : leaf.bold = false) (hi : leaf.italic = false) (hu : leaf.underline = false)
    (hc : truthy leaf.color = false) :
    (leaf.fontSize = some k → sizeMap k = none →
      serialize sizeMap fontFamilyMap (.text leaf)
        = "<span style= \"font-size: undefined\">" ++ escapeHtml leaf.text ++ "</span>")
    ∧ (truthy leaf.fontSize = false → leaf.fontFamily = some k → fontFamilyMap k = none →
      serialize sizeMap fontFamilyMap (.text leaf)
        = "<span style=\" font-family: undefined\">" ++ escapeHtml leaf.text ++ "</span>") := by
  refine ⟨?_, ?_⟩
  · intro hs hm
    have ht : truthy leaf.fontSize = true := by simp [hs, truthy, hk]
    have hl : lookup sizeMap leaf.fontSize = none := by simp [hs, lookup, hm]
    simp [serialize, hb, hi, hu, hc, ht, hl, jsToString]
  · intro hs hf hm
    have ht : truthy leaf.fontFamily = true := by simp [hf, truthy, hk]
    have hl : lookup fontFamilyMap leaf.fontFamily = none := by simp [hf, lookup, hm]
    simp [serialize, hb, hi, hu, hc, hs, ht, hl, jsToString]

/-- C13: with the size key `gigantic` (the family key `comic`), which the table does not
have, `serialize` writes a font-size (font-family) declaration whose value is the text
`undefined`, while `Leaf` on the same span hands the style the undefined value itself,
that is, no declaration. -/
theorem serialize_unknown_font_key :
    sampleSizeMap "gigantic" = none
    ∧ serialize sampleSizeMap sampleFontFamilyMap
        (.text { text := "x", fontSize := some "gigantic" })
      = "<span style= \"font-size: undefined\">x</span>"
    ∧ (Leaf sampleSizeMap sampleFontFamilyMap () () { text := "x", fontSize := some "gigantic" }
        : VNode Unit Unit)
      = .el "span" [] [] (some ()) (.el "span" [] [("fontSize", none)] none (.given ()))
    ∧ sampleFontFamilyMap "comic" = none
    ∧ serialize sampleSizeMap sampleFontFamilyMap
        (.text { text := "x", fontFamily := some "comic" })
      = "<span style=\" font-family: undefined\">x</span>"
    ∧ (Leaf sampleSizeMap sampleFontFamilyMap () () { text := "x", fontFamily := some "comic" }
        : VNode Unit Unit)
      = .el "span" [] [] (some ()) (.el "span" [] [("fontFamily", none)] none (.given ())) := by
  refine ⟨by decide, by decide, rfl, by decide, by decide, rfl⟩

/-- C14: for a node whose kind is none of the sixteen cases of the `switch` of `Element`,
`Element` returns the default `p` element with the given attributes and, as its content,
the given rendered children as they are. -/
theorem element_default {A C : Type} (attributes : A) (children : C)
    (type : String) (url : Option String) (cs : List Node)
    (h : type ∉ elementKinds) :
    (Element attributes children (.element type url cs) : VNode A C)
      = .el "p" [] [] (some attributes) (.given children) := by
  simp only [elementKinds, List.mem_cons, List.mem_singleton, not_or,
    List.mem_nil_iff, not_false_eq_true, and_true] at h
  obtain ⟨h1, h2, h3, h4, h5, h6, h7, h8, h9, h10, h11, h12, h13, h14, h15, h16⟩ := h
  simp [Element, nodeType, h1, h2, h3, h4, h5, h6, h7, h8, h9, h10, h11, h12, h13, h14,
    h15, h16]

/-- The misspelt kind `paragaph` is rendered as the default `p` element. -/
theorem element_default_witness :
    "paragaph" ∉ elementKinds
    ∧ (Element () () (.element "paragaph" none [.text { text := "x" }]) : VNode Unit Unit)
      = .el "p" [] [] (some ()) (.given ()) :=
  ⟨by decide, element_default () () "paragaph" none [.text { text := "x" }] (by decide)⟩

/-- C15: an alignment node with no children serialises, without failing, to the opening
`div` tag of its kind followed at once by `</div>`. -/
theorem serialize_empty_align (sizeMap fontFamilyMap : String → Option String)
    (url : Option String) :
    serialize sizeMap fontFamilyMap (.element "alignLeft" url [])
        = "<div style=\"text-align: left\" >" ++ "</div>"
    ∧ serialize sizeMap fontFamilyMap (.element "alignCenter" url [])
        = "<div style=\"text-align: center\" >" ++ "</div>"
    ∧ serialize sizeMap fontFamilyMap (.element "alignRight" url [])
        = "<div style=\"text-align: right\" >" ++ "</div>" := by
  simp [serialize, serializeChildren]

/-! ## Depth of the recursion and the call stack -/

theorem depth_pos (node : Node) : 1 ≤ node.depth := by
  cases node <;> simp [Node.depth]

theorem depth_nest (k : Nat) : (nest k).depth = k + 1 := by
  induction k with
  | zero => simp [nest, Node.depth]
  | succ k ih => simp [nest, Node.depth, Node.depthList, ih]

theorem joinCalls_of_depth_le (sizeMap fontFamilyMap : String → Option String) (stack : Nat)
    (ih : ∀ node : Node, node.depth ≤ stack →
      serializeOnStack sizeMap fontFamilyMap stack node
        = .ok (serialize sizeMap fontFamilyMap node)) :
    ∀ cs : List Node, Node.depthList cs ≤ stack →
      joinCalls (serializeOnStack sizeMap fontFamilyMap stack) cs
        = .ok (serializeChildren sizeMap fontFamilyMap cs) := by
  intro cs
  induction cs with
  | nil => intro _; simp [joinCalls, serializeChildren]
  | cons c cs ihcs =>
    intro h
    simp only [Node.depthList, max_le_iff] at h
    simp [joinCalls, serializeChildren, ih c h.1, ihcs h.2]

theorem serializeOnStack_of_depth_le (sizeMap fontFamilyMap : String → Option String) :
    ∀ (stack : Nat) (node : Node), node.depth ≤ stack →
      serializeOnStack sizeMap fontFamilyMap stack node
        = .ok (serialize sizeMap fontFamilyMap node) := by
  intro stack
  induction stack with
  | zero =>
    intro node h
    have := depth_pos node
    omega
  | succ stack ih =>
    intro node h
    cases node with
    | text leaf => simp [serializeOnStack, serialize_text_eq]
    | element type url cs =>
      simp only [Node.depth, Nat.add_le_add_iff_right] at h
      simp [serializeOnStack, joinCalls_of_depth_le sizeMap fontFamilyMap stack ih cs h,
        serialize_element_eq]

theorem joinCalls_of_lt_depth (sizeMap fontFamilyMap : String → Option String) (stack : Nat)
    (ih : ∀ node : Node, stack < node.depth →
      serializeOnStack sizeMap fontFamilyMap stack node = .error .rangeError) :
    ∀ cs : List Node, stack < Node.depthList cs →
      joinCalls (serializeOnStack sizeMap fontFamilyMap stack) cs = .error .rangeError := by
  intro cs
  induction cs with
  | nil => intro h; simp [Node.depthList] at h
  | cons c cs ihcs =>
    intro h
    simp only [Node.depthList, lt_max_iff] at h
    by_cases hc : stack < c.depth
    · simp [joinCalls, ih c hc]
    · have hcs : stack < Node.depthList cs := by
        rcases h with h | h
        · exact absurd h hc
        · exact h
      have hok := serializeOnStack_of_depth_le sizeMap fontFamilyMap stack c (by omega)
      simp [joinCalls, hok, ihcs hcs]

theorem serializeOnStack_of_lt_depth (sizeMap fontFamilyMap : String → Option String) :
    ∀ (stack : Nat) (node : Node), stack < node.depth →
      serializeOnStack sizeMap fontFamilyMap stack node = .error .rangeError := by
  intro stack
  induction stack with
  | zero => intro node _; simp [serializeOnStack]
  | succ stack ih =>
    intro node h
    cases node with
    | text leaf => simp [Node.depth] at h
    | element type url cs =>
      simp only [Node.depth, Nat.add_lt_add_iff_right] at h
      simp [serializeOnStack, joinCalls_of_lt_depth sizeMap fontFamilyMap stack ih cs h]

/-- C16 as the code has it: on every finite tree (any kinds, any marks, any children
lists) the recursion of `serialize` goes exactly as deep as the tree is nested; run on a
call stack with room for `stack` nested calls it returns the string `serialize node`
when the nesting depth of the tree is at most `stack`, and it ends with `RangeError`
when the tree is nested deeper than that. -/
theorem serialize_total (sizeMap fontFamilyMap : String → Option String)
    (stack : Nat) (node : Node) :
    (node.depth ≤ stack →
      serializeOnStack sizeMap fontFamilyMap stack node
        = .ok (serialize sizeMap fontFamilyMap node))
    ∧ (stack < node.depth →
      serializeOnStack sizeMap fontFamilyMap stack node = .error .rangeError) :=
  ⟨serializeOnStack_of_depth_le sizeMap fontFamilyMap stack node,
    serializeOnStack_of_lt_depth sizeMap fontFamilyMap stack node⟩

/-- A tree of depth 3 with an unknown kind, an empty children list and a marked leaf: with
room for 3 nested calls the run returns its serialisation, with room for 2 it ends with
`RangeError`. -/
theorem serialize_total_witness :
    serializeOnStack sampleSizeMap sampleFontFamilyMap 3
        (.element "paragaph" none
          [.element "alignLeft" none [], .element "link" none [.text { text := "a", code := true }]])
      = .ok "<div style=\"text-align: left\" ></div><a href=\"undefined\">a</a>"
    ∧ serializeOnStack sampleSizeMap sampleFontFamilyMap 2
        (.element "paragaph" none
          [.element "alignLeft" none [], .element "link" none [.text { text := "a", code := true }]])
      = .error .rangeError :=
  ⟨((serialize_total sampleSizeMap sampleFontFamilyMap 3
      (.element "paragaph" none
        [.element "alignLeft" none [],
          .element "link" none [.text { text := "a", code := true }]])).1
      (by decide)).trans (congrArg Except.ok (by decide)),
    (serialize_total sampleSizeMap sampleFontFamilyMap 2
      (.element "paragaph" none
        [.element "alignLeft" none [],
          .element "link" none [.text { text := "a", code := true }]])).2
      (by decide)⟩

/-- C16 fails as stated: the chain of 10000 nested paragraphs around one text is a finite
tree, of depth 10001, and on a call stack with room for 10000 nested calls `serialize`
does not return a string on it: the run ends with `RangeError`. -/
theorem serialize_total_counterexample :
    (nest 10000).depth = 10001
    ∧ serializeOnStack sampleSizeMap sampleFontFamilyMap 10000 (nest 10000)
        = .error .rangeError :=
  ⟨depth_nest 10000,
    serializeOnStack_of_lt_depth sampleSizeMap sampleFontFamilyMap 10000 (nest 10000)
      (by rw [depth_nest]; omega)⟩

/-! ## The marks `serialize` reads -/

/-- C17: `serialize` puts at most one mark wrapper around the escaped text: the wrapper
of the first present mark in the priority bold, italic, underline, color, fontSize,
fontFamily, whatever the later marks are; when none of the six is present the output is
the bare escaped text. -/
theorem serialize_first_mark (sizeMap fontFamilyMap : String → Option String)
    (leaf : TextSpan) :
    serialize sizeMap fontFamilyMap (.text leaf)
      = (match serializePriority.find? (present leaf) with
          | some m => serializeWrap sizeMap fontFamilyMap leaf (escapeHtml leaf.text) m
          | none => escapeHtml leaf.text)
    ∧ serializePriority = [.bold, .italic, .underline, .color, .fontSize, .fontFamily]
    ∧ ((∀ m ∈ serializePriority, present leaf m = false) →
        serialize sizeMap fontFamilyMap (.text leaf) = escapeHtml leaf.text) := by
  refine ⟨?_, rfl, ?_⟩
  · simp only [serialize, serializePriority, List.find?, present]
    cases leaf.bold <;> cases leaf.italic <;> cases leaf.underline
      <;> cases truthy leaf.color <;> cases truthy leaf.fontSize
      <;> cases truthy leaf.fontFamily <;> simp [serializeWrap]
  · intro h
    have hb := h .bold (by simp [serializePriority])
    have hi := h .italic (by simp [serializePriority])
    have hu := h .underline (by simp [serializePriority])
    have hc := h .color (by simp [serializePriority])
    have hs := h .fontSize (by simp [serializePriority])
    have hf := h .fontFamily (by simp [serializePriority])
    simp only [present] at hb hi hu hc hs hf
    simp [serialize, hb, hi, hu, hc, hs, hf]

/-- A leaf with italic, colour and font size: the `em` wrapper alone; a leaf with only
the five marks without a branch: the bare text. -/
theorem serialize_first_mark_witness :
    serialize sampleSizeMap sampleFontFamilyMap
        (.text { text := "a&b", italic := true, color := some "red", fontSize := some "huge" })
      = "<em>a&amp;b</em>"
    ∧ serialize sampleSizeMap sampleFontFamilyMap
        (.text { text := "a&b", code := true, strikethrough := true, superscript := true, subscript := true, bgColor := some "blue" })
      = "a&amp;b" :=
  ⟨(serialize_first_mark sampleSizeMap sampleFontFamilyMap
      { text := "a&b", italic := true, color := some "red", fontSize := some "huge" }).1.trans
      (by decide),
    ((serialize_first_mark sampleSizeMap sampleFontFamilyMap
      { text := "a&b", code := true, strikethrough := true, superscript := true, subscript := true, bgColor := some "blue" }).2.2 (by decide)).trans (by decide)⟩

/-- C18: the marks code, strikethrough, superscript, subscript and bgColor never
influence `serialize`: two text spans with the same text that agree on bold, italic,
underline, color, fontSize and fontFamily have the same serialisation. -/
theorem serialize_ignores_marks (sizeMap fontFamilyMap : String → Option String)
    (a b : TextSpan) (ht : a.text = b.text) (hb : a.bold = b.bold)
    (hi : a.italic = b.italic) (hu : a.underline = b.underline) (hc : a.color = b.color)
    (hs : a.fontSize = b.fontSize) (hf : a.fontFamily = b.fontFamily) :
    serialize sizeMap fontFamilyMap (.text a) = serialize sizeMap fontFamilyMap (.text b) := by
  simp only [serialize, ht, hb, hi, hu, hc, hs, hf]

/-- Two spans that differ in all five marks and agree on the rest serialise alike. -/
theorem serialize_ignores_marks_witness :
    serialize sampleSizeMap sampleFontFamilyMap
        (.text { text := "x", underline := true, code := true, strikethrough := true, superscript := true, subscript := true, bgColor := some "blue" })
      = serialize sampleSizeMap sampleFontFamilyMap
        (.text { text := "x", underline := true }) :=
  serialize_ignores_marks sampleSizeMap sampleFontFamilyMap
    { text := "x", underline := true, code := true, strikethrough := true, superscript := true, subscript := true, bgColor := some "blue" }
    { text := "x", underline := true } rfl rfl rfl rfl rfl rfl rfl

/-! ## The body of the document -/

theorem documentBody_cons (sizeMap fontFamilyMap : String → Option String)
    (n : Node) (ns : List Node) :
    documentBody sizeMap fontFamilyMap (n :: ns)
      = "<br/>" ++ serialize sizeMap fontFamilyMap n ++ documentBody sizeMap fontFamilyMap ns := by
  apply String.ext
  simp [documentBody, String.join_eq, String.data_append]

theorem documentBody_append (sizeMap fontFamilyMap : String → Option String)
    (xs ys : List Node) :
    documentBody sizeMap fontFamilyMap (xs ++ ys)
      = documentBody sizeMap fontFamilyMap xs ++ documentBody sizeMap fontFamilyMap ys := by
  apply String.ext
  simp [documentBody, String.join_eq, String.data_append]

theorem document_loop_body (sizeMap fontFamilyMap : String → Option String)
    (value : List Node) : ∀ acc : String,
    value.foldl (fun texthtml n => texthtml ++ "<br/>" ++ serialize sizeMap fontFamilyMap n) acc
      = acc ++ documentBody sizeMap fontFamilyMap value := by
  induction value with
  | nil => intro acc; simp [documentBody, String.join]
  | cons n ns ih =>
    intro acc
    rw [List.foldl_cons, ih, documentBody_cons]
    simp [String.append_assoc]

theorem serializeDocument_eq_body (sizeMap fontFamilyMap : String → Option String)
    (value : List Node) :
    serializeDocument sizeMap fontFamilyMap value
      = "<div>" ++ documentBody sizeMap fontFamilyMap value ++ "</div>" := by
  unfold serializeDocument
  rw [document_loop_body]

/-- C19: the document-level output is `<div>`, then for every top-level node in order the
line break followed by its serialisation, then `</div>`; the empty document gives exactly
`<div></div>`; the output of a non-empty document starts with `<div><br/>`; and the
document `xs ++ ys` gives the body of `xs` followed by the body of `ys` inside one
container. -/
theorem serializeDocument_body (sizeMap fontFamilyMap : String → Option String) :
    (∀ value : List Node, serializeDocument sizeMap fontFamilyMap value
        = "<div>"
            ++ String.join (value.map (fun n => "<br/>" ++ serialize sizeMap fontFamilyMap n))
            ++ "</div>")
    ∧ serializeDocument sizeMap fontFamilyMap [] = "<div></div>"
    ∧ (∀ (n : Node) (ns : List Node),
        "<div><br/>".data <+: (serializeDocument sizeMap fontFamilyMap (n :: ns)).data)
    ∧ (∀ xs ys : List Node, serializeDocument sizeMap fontFamilyMap (xs ++ ys)
        = "<div>" ++ documentBody sizeMap fontFamilyMap xs
            ++ documentBody sizeMap fontFamilyMap ys ++ "</div>") := by
  refine ⟨?_, ?_, ?_, ?_⟩
  · intro value
    exact serializeDocument_eq_body sizeMap fontFamilyMap value
  · simp [serializeDocument]
  · intro n ns
    rw [serializeDocument_eq_body, documentBody_cons]
    refine ⟨(serialize sizeMap fontFamilyMap n ++ documentBody sizeMap fontFamilyMap ns
      ++ "</div>").data, ?_⟩
    simp [String.data_append]
  · intro xs ys
    rw [serializeDocument_eq_body, documentBody_append]
    simp [String.append_assoc]

/-- The document of a heading and a paragraph: each result has the line break before it. -/
theorem serializeDocument_body_witness :
    serializeDocument sampleSizeMap sampleFontFamilyMap
        ([.element "headingOne" none [.text { text := "T" }]]
          ++ [.element "paragraph" none [.text { text := "a" }]])
      = "<div><br/><h1>T</h1><br/><p>a</p></div>" :=
  ((serializeDocument_body sampleSizeMap sampleFontFamilyMap).2.2.2
      [.element "headingOne" none [.text { text := "T" }]]
      [.element "paragraph" none [.text { text := "a" }]]).trans (by decide)

end SlateEditor
